import Mathlib

/-!
Verification of the OpenAlias resolver core against its specification.

The repository source available is the configuration layer (`src/options.rs`);
the alias-to-FQDN converter, the record fetcher contract and the record
parser/selector are part of the same crate but outside the provided sources,
so they are modelled here from the specification's wording.  `Options` and
its validator callback are embedded directly from `src/options.rs`.
-/

/-- Splits a character list on every occurrence of `c`; the separators are
dropped and empty chunks are kept, so the result always has one more element
than the number of occurrences of `c`. -/
def splitOnChar (c : Char) : List Char → List (List Char)
  | [] => [[]]
  | x :: xs =>
    if x = c then
      [] :: splitOnChar c xs
    else
      match splitOnChar c xs with
      | [] => [[x]]
      | p :: ps => (x :: p) :: ps

theorem splitOnChar_ne_nil (c : Char) (l : List Char) : splitOnChar c l ≠ [] := by
  cases l with
  | nil => simp [splitOnChar]
  | cons x xs =>
    simp only [splitOnChar]
    split
    · simp
    · split
      · simp
      · simp

theorem length_splitOnChar (c : Char) (l : List Char) :
    (splitOnChar c l).length = l.count c + 1 := by
  induction l with
  | nil => simp [splitOnChar, List.count_nil]
  | cons x xs ih =>
    simp only [splitOnChar]
    by_cases hx : x = c
    · simp [hx, List.count_cons, ih]
    · have hne := splitOnChar_ne_nil c xs
      cases hsp : splitOnChar c xs with
      | nil => exact absurd hsp hne
      | cons p ps =>
        rw [hsp] at ih
        simp [hx, List.count_cons, ← ih]

/-- Modelled from the spec: permitted characters of a DNS label — letters,
digits and hyphen. -/
def isLabelChar (c : Char) : Bool :=
  c.isAlpha || c.isDigit || c == '-'

/-- Modelled from the spec: a DNS label is 1–63 characters, restricted to
letters/digits/hyphen, with no leading or trailing hyphen. -/
def validLabel (l : List Char) : Bool :=
  decide (1 ≤ l.length) && decide (l.length ≤ 63) && l.all isLabelChar &&
    !(l.head? == some '-') && !(l.getLast? == some '-')

/-- Modelled from the spec: a syntactically legal DNS name — 1–253 total
characters, labels separated by dots, every label valid. -/
def validDomain (d : List Char) : Bool :=
  decide (1 ≤ d.length) && decide (d.length ≤ 253) &&
    (splitOnChar '.' d).all validLabel

/-- Modelled from the spec: the alias-to-FQDN converter `alias_to_fqdn`
(declared in the crate root and re-used by `src/options.rs`).  It accepts
exactly the strings of shape `local-part@domain` with exactly one `@`, a
non-empty local-part and a syntactically valid DNS domain-part, and produces
the FQDN by prefixing the fixed OpenAlias discovery label to the domain-part. -/
def alias_to_fqdn (s : String) : Option String :=
  match splitOnChar '@' s.data with
  | [lo, dom] =>
    if decide (1 ≤ lo.length) && validDomain dom then
      some (String.mk ("oa1._openalias.".data ++ dom))
    else
      none
  | _ => none

/-- The domain-part of an alias string: the chunk after the last `@`
(the whole string when no `@` is present). -/
def domainPart (s : String) : List Char :=
  (splitOnChar '@' s.data).getLastD []

example : alias_to_fqdn "donate@example.org" = some "oa1._openalias.example.org" := by
  decide

example : alias_to_fqdn "no-at-sign" = none := by decide

example : alias_to_fqdn "a@b@c.org" = none := by decide

example : alias_to_fqdn "x@-bad.org" = none := by decide

/-- Modelled from the spec: a structured OpenAlias record — required address,
optional recipient name, optional memo, optional currency tag. -/
structure ParsedRecord where
  address : String
  recipient_name : Option String
  memo : Option String
  currency : Option String
deriving DecidableEq, Repr

/-- Modelled from the spec: the fixed OpenAlias record-format version marker
that the value of the `oa1` key must match. -/
def oa1VersionMarker : List Char := ['1']

/-- Splits a character list at every character satisfying `p`, dropping the
separators and keeping empty chunks. -/
def splitOnP (p : Char → Bool) : List Char → List (List Char)
  | [] => [[]]
  | x :: xs =>
    if p x then
      [] :: splitOnP p xs
    else
      match splitOnP p xs with
      | [] => [[x]]
      | q :: qs => (x :: q) :: qs

/-- The whitespace-separated tokens of one raw TXT string. -/
def tokens (raw : String) : List (List Char) :=
  (splitOnP Char.isWhitespace raw.data).filter (fun t => !t.isEmpty)

/-- Splits one token into a `key=value` pair; tokens without exactly one `=`
are not key-value pairs. -/
def keyValue (tok : List Char) : Option (List Char × List Char) :=
  match splitOnChar '=' tok with
  | [k, v] => some (k, v)
  | _ => none

/-- All `key=value` pairs of one raw TXT string. -/
def recordPairs (raw : String) : List (List Char × List Char) :=
  (tokens raw).filterMap keyValue

/-- Modelled from the spec: parsing of one raw TXT string under the OpenAlias
key=value grammar.  The string yields a record only when its pairs carry the
`oa1` key with the fixed version marker and the required `recipient_address`
key; `recipient_name`, `tx_description` and `currency` are optional. -/
def parseRecord (raw : String) : Option ParsedRecord :=
  let ps := recordPairs raw
  match ps.lookup "oa1".data, ps.lookup "recipient_address".data with
  | some v, some addr =>
    if v = oa1VersionMarker then
      some { address := String.mk addr,
             recipient_name := (ps.lookup "recipient_name".data).map String.mk,
             memo := (ps.lookup "tx_description".data).map String.mk,
             currency := (ps.lookup "currency".data).map String.mk }
    else
      none
  | _, _ => none

/-- Lower-cases every character of a string, for case-insensitive currency
comparison. -/
def lowerStr (s : String) : String :=
  String.mk (s.data.map Char.toLower)

/-- Modelled from the spec: a record passes the currency filter when the
filter is absent or empty, when the record carries no currency tag, or when
its tag case-insensitively equals some entry of the filter set. -/
def currencyMatches (filter : Option (List String)) (r : ParsedRecord) : Bool :=
  match filter with
  | none => true
  | some [] => true
  | some fs =>
    match r.currency with
    | none => true
    | some c => fs.any (fun f => lowerStr f == lowerStr c)

/-- Modelled from the spec: the currency-filter selection step over already
parsed records. -/
def selectRecords (parsed : List ParsedRecord) (filter : Option (List String)) :
    List ParsedRecord :=
  parsed.filter (currencyMatches filter)

/-- Modelled from the spec: the outcomes of one alias lookup. -/
inductive Outcome where
  | Success : ParsedRecord → Outcome
  | AmbiguousResult : List ParsedRecord → Outcome
  | NoMatch : Outcome
  | Invalid : Outcome
  | NameNotFound : Outcome
  | NoData : Outcome
  | TransportFailure : Outcome
deriving DecidableEq, Repr

/-- Modelled from the spec: the RecordFetcher failure kinds. -/
inductive FetchError where
  | NameNotFound : FetchError
  | NoData : FetchError
  | TransportFailure : FetchError
deriving DecidableEq, Repr

/-- The lookup outcome corresponding to a fetch failure. -/
def fetchErrorToOutcome : FetchError → Outcome
  | FetchError.NameNotFound => Outcome.NameNotFound
  | FetchError.NoData => Outcome.NoData
  | FetchError.TransportFailure => Outcome.TransportFailure

/-- Modelled from the spec: the parser/selector — parse every raw string,
drop the invalid ones, filter by currency, then report no match, a unique
success, or an ambiguity carrying all surviving records in order. -/
def parse_and_select (raws : List String) (filter : Option (List String)) :
    Outcome :=
  match selectRecords (raws.filterMap parseRecord) filter with
  | [] => Outcome.NoMatch
  | [r] => Outcome.Success r
  | rs => Outcome.AmbiguousResult rs

/-- Modelled from the spec: the per-alias pipeline, parametric in the DNS
transport `fetch` and in the parser/selector `selector` so that independence
from each stage can be stated. -/
def resolveWith (fetch : String → Except FetchError (List String))
    (selector : List String → Option (List String) → Outcome)
    (a : String) (filter : Option (List String)) : Outcome :=
  match alias_to_fqdn a with
  | none => Outcome.Invalid
  | some fqdn =>
    match fetch fqdn with
    | Except.error e => fetchErrorToOutcome e
    | Except.ok raws => selector raws filter

/-- Modelled from the spec: the pipeline with the real parser/selector. -/
def resolve (fetch : String → Except FetchError (List String))
    (a : String) (filter : Option (List String)) : Outcome :=
  resolveWith fetch parse_and_select a filter

example :
    parse_and_select ["oa1=1 recipient_address=ADDR1 currency=BTC"] (some ["BTC"]) =
      Outcome.Success { address := "ADDR1", recipient_name := none, memo := none,
                        currency := some "BTC" } := by
  decide

example :
    parse_and_select ["oa1=1 recipient_address=ADDR1 currency=BTC"] (some ["ETH"]) =
      Outcome.NoMatch := by
  decide

example :
    parse_and_select ["oa1=1 recipient_address=ADDR1 currency=BTC"] (some ["btc"]) =
      Outcome.Success { address := "ADDR1", recipient_name := none, memo := none,
                        currency := some "BTC" } := by
  decide

/-- Embeds `Options::open_alias_validator` from `src/options.rs`:
`alias_to_fqdn(&s).map(|_| ()).ok_or_else(|| format ...)`. -/
def open_alias_validator (s : String) : Except String Unit :=
  match (alias_to_fqdn s).map (fun _ => ()) with
  | some u => Except.ok u
  | none => Except.error (s ++ " is not a valid OpenAlias address")

/-- Whether the validator callback accepts an alias string. -/
def acceptsAlias (s : String) : Bool :=
  match open_alias_validator s with
  | Except.ok _ => true
  | Except.error _ => false

/-- Embeds the `Options` struct of `src/options.rs`. -/
structure Options where
  aliases : List String
  verbose : Bool
  raw : Bool
  currency_filter : Option (List String)
deriving DecidableEq, Repr

/-- The argument matches relevant to `Options::parse`: the values of the
`<OPEN_ALIAS>...` positional argument, the two flags and the repeatable
`--currency` option. -/
structure ArgMatches where
  open_alias : List String
  verbose : Bool
  raw : Bool
  currency : Option (List String)
deriving DecidableEq, Repr

/-- Modelled from the spec: the argument-parsing collaborator (clap) is an
excluded external layer; its contract for this app is that `get_matches`
returns matches only when the required `<OPEN_ALIAS>...` argument has at
least one value and every value passes the registered validator — otherwise
the process exits with a usage error (modelled as `none`). -/
def get_matches (open_alias_values : List String) (verbose raw : Bool)
    (currency : Option (List String)) : Option ArgMatches :=
  if !open_alias_values.isEmpty && open_alias_values.all acceptsAlias then
    some { open_alias := open_alias_values, verbose := verbose, raw := raw,
           currency := currency }
  else
    none

/-- The clap accessor `matches.values_of("OPEN_ALIAS")`: `none` when the
argument was not supplied, otherwise the list of values. -/
def values_of_OPEN_ALIAS (m : ArgMatches) : Option (List String) :=
  match m.open_alias with
  | [] => none
  | vs => some vs

/-- Embeds `Options::parse` from `src/options.rs`, over the modelled clap
layer: build the matches, then read the fields; the `.unwrap()` on
`values_of("OPEN_ALIAS")` is modelled by the `none` branch (a panic). -/
def Options.parse (open_alias_values : List String) (verbose raw : Bool)
    (currency : Option (List String)) : Option Options :=
  match get_matches open_alias_values verbose raw currency with
  | none => none
  | some m =>
    match values_of_OPEN_ALIAS m with
    | none => none
    | some vs =>
      some { aliases := vs, verbose := m.verbose, raw := m.raw,
             currency_filter := m.currency }

/-- The parser/selector never reports a malformed alias: its outcomes are
only `NoMatch`, `Success` or `AmbiguousResult`. -/
theorem parse_and_select_ne_invalid (raws : List String)
    (filter : Option (List String)) :
    parse_and_select raws filter ≠ Outcome.Invalid := by
  rcases hsel : selectRecords (raws.filterMap parseRecord) filter with
    _ | ⟨a, _ | ⟨b, l⟩⟩ <;> simp [parse_and_select, hsel]

/-- A fetch failure never maps to the `Invalid` outcome. -/
theorem fetchErrorToOutcome_ne_invalid (e : FetchError) :
    fetchErrorToOutcome e ≠ Outcome.Invalid := by
  cases e <;> simp [fetchErrorToOutcome]

/-- C1: every input string without exactly one `@`, or whose domain-part is
not a syntactically valid DNS name, is rejected by the alias-to-FQDN
conversion: `alias_to_fqdn` returns no FQDN, so the validator rejects it. -/
theorem alias_to_fqdn_none_of_invalid (s : String)
    (h : s.data.count '@' ≠ 1 ∨ validDomain (domainPart s) = false) :
    alias_to_fqdn s = none := by
  rcases hsp : splitOnChar '@' s.data with _ | ⟨lo, _ | ⟨dom, rest⟩⟩
  · simp [alias_to_fqdn, hsp]
  · simp [alias_to_fqdn, hsp]
  · cases rest with
    | nil =>
      rcases h with h | h
      · exfalso
        have hl := length_splitOnChar '@' s.data
        rw [hsp] at hl
        simp at hl
        omega
      · unfold domainPart at h
        rw [hsp] at h
        simp [List.getLastD] at h
        simp [alias_to_fqdn, hsp, h]
    | cons x xs => simp [alias_to_fqdn, hsp]

theorem alias_to_fqdn_none_of_invalid_witness :
    (("nodomain" : String).data.count '@' ≠ 1 ∨
      validDomain (domainPart "nodomain") = false) ∧
    alias_to_fqdn "nodomain" = none :=
  ⟨Or.inl (by decide), alias_to_fqdn_none_of_invalid "nodomain" (Or.inl (by decide))⟩

/-- C6: the alias-to-FQDN conversion is deterministic and depends only on
the alias argument: equal alias strings yield equal results. -/
theorem alias_to_fqdn_deterministic (a b : String) (h : a = b) :
    alias_to_fqdn a = alias_to_fqdn b := by
  rw [h]

theorem alias_to_fqdn_deterministic_witness :
    ("donate@example.org" : String) = "donate@example.org" ∧
    alias_to_fqdn "donate@example.org" = alias_to_fqdn "donate@example.org" :=
  ⟨rfl, alias_to_fqdn_deterministic "donate@example.org" "donate@example.org" rfl⟩

/-- C9: the argument parser's validator and the pipeline's converter are the
same implementation: the validator accepts an alias exactly when
`alias_to_fqdn` produces an FQDN, and the pipeline reports `Invalid` exactly
when `alias_to_fqdn` produces none — the two call sites can never disagree. -/
theorem validator_iff_converter (s : String) :
    ((∃ u, open_alias_validator s = Except.ok u) ↔ (∃ f, alias_to_fqdn s = some f)) ∧
    (∀ fetch filter, alias_to_fqdn s = none ↔ resolve fetch s filter = Outcome.Invalid) := by
  constructor
  · cases halias : alias_to_fqdn s <;> simp [open_alias_validator, halias]
  · intro fetch filter
    constructor
    · intro h
      simp [resolve, resolveWith, h]
    · intro h
      cases halias : alias_to_fqdn s with
      | none => rfl
      | some fqdn =>
        exfalso
        unfold resolve resolveWith at h
        rw [halias] at h
        cases hf : fetch fqdn with
        | error e =>
          simp only [hf] at h
          exact fetchErrorToOutcome_ne_invalid e h
        | ok raws =>
          simp only [hf] at h
          exact parse_and_select_ne_invalid raws filter h

/-- C2: the selection step keeps exactly the parsed records whose currency
field is absent or case-insensitively equal to some entry of the filter set,
and keeps every record when the filter is absent or empty. -/
theorem selectRecords_mem_iff (parsed : List ParsedRecord)
    (filter : Option (List String)) (r : ParsedRecord) :
    r ∈ selectRecords parsed filter ↔
      r ∈ parsed ∧
        (filter = none ∨ filter = some [] ∨ r.currency = none ∨
          ∃ fs c f, filter = some fs ∧ r.currency = some c ∧ f ∈ fs ∧
            lowerStr f = lowerStr c) := by
  unfold selectRecords
  rw [List.mem_filter]
  refine and_congr_right fun _ => ?_
  rcases filter with _ | ⟨_ | ⟨f0, fs0⟩⟩
  · simp [currencyMatches]
  · simp [currencyMatches]
  · rcases hcur : r.currency with _ | c
    · simp [currencyMatches, hcur]
    · simp only [currencyMatches, hcur, List.any_eq_true, beq_iff_eq]
      constructor
      · rintro ⟨f, hf, hlow⟩
        exact Or.inr (Or.inr (Or.inr ⟨f0 :: fs0, c, f, rfl, rfl, hf, hlow⟩))
      · rintro (h | h | h | ⟨fs, c', f, hfs, hc, hf, hlow⟩)
        · exact absurd h (by simp)
        · exact absurd h (by simp)
        · exact absurd h (by simp)
        · cases hc
          cases hfs
          exact ⟨f, hf, hlow⟩

/-- C3: whenever more than one parsed record survives the currency filter,
selection returns `AmbiguousResult` carrying all surviving records, in the
order their raw TXT strings appeared, rather than picking one. -/
theorem parse_and_select_ambiguousResult (raws : List String)
    (filter : Option (List String))
    (h : 1 < (selectRecords (raws.filterMap parseRecord) filter).length) :
    parse_and_select raws filter =
      Outcome.AmbiguousResult (selectRecords (raws.filterMap parseRecord) filter) := by
  rcases hsel : selectRecords (raws.filterMap parseRecord) filter with _ | ⟨a, _ | ⟨b, l⟩⟩
  · rw [hsel] at h
    simp at h
  · rw [hsel] at h
    simp at h
  · simp [parse_and_select, hsel]

theorem parse_and_select_ambiguousResult_witness :
    1 < (selectRecords
        ((["oa1=1 recipient_address=A currency=BTC",
           "oa1=1 recipient_address=B currency=XMR"]).filterMap parseRecord)
        none).length ∧
    parse_and_select
        ["oa1=1 recipient_address=A currency=BTC",
         "oa1=1 recipient_address=B currency=XMR"] none =
      Outcome.AmbiguousResult
        (selectRecords
          ((["oa1=1 recipient_address=A currency=BTC",
             "oa1=1 recipient_address=B currency=XMR"]).filterMap parseRecord)
          none) :=
  ⟨by decide,
   parse_and_select_ambiguousResult
     ["oa1=1 recipient_address=A currency=BTC",
      "oa1=1 recipient_address=B currency=XMR"] none (by decide)⟩

/-- The surviving records of the C3 witness appear in their original raw
order: the `BTC` record first, the `XMR` record second. -/
theorem selectRecords_order_example :
    selectRecords
        ((["oa1=1 recipient_address=A currency=BTC",
           "oa1=1 recipient_address=B currency=XMR"]).filterMap parseRecord)
        none =
      [{ address := "A", recipient_name := none, memo := none, currency := some "BTC" },
       { address := "B", recipient_name := none, memo := none, currency := some "XMR" }] := by
  decide

/-- C4: a raw TXT string missing the `oa1` version marker or the required
`recipient_address` key is silently dropped: the parse-and-select result of
a raw record set containing it equals the result without it, so it
contributes no record and causes no error, while the remaining raw strings
still produce theirs. -/
theorem parse_and_select_drops_invalid_raw (xs ys : List String) (raw : String)
    (filter : Option (List String))
    (h : (recordPairs raw).lookup "oa1".data ≠ some oa1VersionMarker ∨
         (recordPairs raw).lookup "recipient_address".data = none) :
    parse_and_select (xs ++ raw :: ys) filter = parse_and_select (xs ++ ys) filter := by
  have hnone : parseRecord raw = none := by
    rcases h with h | h
    · cases ho : (recordPairs raw).lookup "oa1".data with
      | none => simp [parseRecord, ho]
      | some v =>
        rw [ho] at h
        cases ha : (recordPairs raw).lookup "recipient_address".data with
        | none => simp [parseRecord, ho, ha]
        | some addr =>
          have hv : v ≠ oa1VersionMarker := fun hv => h (by rw [hv])
          simp [parseRecord, ho, ha, hv]
    · cases ho : (recordPairs raw).lookup "oa1".data with
      | none => simp [parseRecord, ho]
      | some v => simp [parseRecord, ho, h]
  have hfm : (xs ++ raw :: ys).filterMap parseRecord = (xs ++ ys).filterMap parseRecord := by
    simp [List.filterMap_append, List.filterMap_cons, hnone]
  unfold parse_and_select
  rw [hfm]

theorem parse_and_select_drops_invalid_raw_witness :
    (recordPairs "recipient_name=Bob").lookup "recipient_address".data = none ∧
    parse_and_select
        (["oa1=1 recipient_address=A"] ++ "recipient_name=Bob" :: []) none =
      parse_and_select (["oa1=1 recipient_address=A"] ++ []) none :=
  ⟨by decide,
   parse_and_select_drops_invalid_raw ["oa1=1 recipient_address=A"] []
     "recipient_name=Bob" none (Or.inr (by decide))⟩

/-- C5: when parsing and filtering leave zero records, selection returns
`NoMatch`, an outcome distinct from the fetcher-level `NoData` result. -/
theorem parse_and_select_noMatch (raws : List String)
    (filter : Option (List String))
    (h : selectRecords (raws.filterMap parseRecord) filter = []) :
    parse_and_select raws filter = Outcome.NoMatch ∧
      Outcome.NoMatch ≠ Outcome.NoData := by
  constructor
  · unfold parse_and_select
    rw [h]
  · simp

theorem parse_and_select_noMatch_witness :
    selectRecords
        ((["oa1=1 recipient_address=ADDR1 currency=BTC"]).filterMap parseRecord)
        (some ["ETH"]) = [] ∧
    (parse_and_select ["oa1=1 recipient_address=ADDR1 currency=BTC"] (some ["ETH"]) =
        Outcome.NoMatch ∧
      Outcome.NoMatch ≠ Outcome.NoData) :=
  ⟨by decide,
   parse_and_select_noMatch ["oa1=1 recipient_address=ADDR1 currency=BTC"]
     (some ["ETH"]) (by decide)⟩

/-- C7: when the fetch outcome is a failure, the pipeline's result is that
failure's outcome, independent of whatever parser/selector is installed (the
parser is never invoked), and the `NoData` failure is distinct from the
`NameNotFound` failure in the fetch outcome itself. -/
theorem resolveWith_fetch_error
    (fetch : String → Except FetchError (List String))
    (sel₁ sel₂ : List String → Option (List String) → Outcome)
    (a fqdn : String) (filter : Option (List String)) (e : FetchError)
    (h1 : alias_to_fqdn a = some fqdn) (h2 : fetch fqdn = Except.error e) :
    resolveWith fetch sel₁ a filter = fetchErrorToOutcome e ∧
    resolveWith fetch sel₁ a filter = resolveWith fetch sel₂ a filter ∧
    FetchError.NoData ≠ FetchError.NameNotFound := by
  refine ⟨?_, ?_, by decide⟩ <;> simp [resolveWith, h1, h2]

theorem resolveWith_fetch_error_witness :
    resolveWith (fun _ => Except.error FetchError.NoData) parse_and_select
        "donate@example.org" none = fetchErrorToOutcome FetchError.NoData ∧
    resolveWith (fun _ => Except.error FetchError.NoData) parse_and_select
        "donate@example.org" none =
      resolveWith (fun _ => Except.error FetchError.NoData)
        (fun _ _ => Outcome.NoMatch) "donate@example.org" none ∧
    FetchError.NoData ≠ FetchError.NameNotFound :=
  resolveWith_fetch_error (fun _ => Except.error FetchError.NoData)
    parse_and_select (fun _ _ => Outcome.NoMatch) "donate@example.org"
    "oa1._openalias.example.org" none FetchError.NoData (by decide) rfl

/-- C8: an invalid alias yields the `Invalid` outcome with no network
access: the pipeline's result is `Invalid` and does not depend on the DNS
transport at all, so no query is issued. -/
theorem resolveWith_invalid_before_fetch
    (fetch₁ fetch₂ : String → Except FetchError (List String))
    (sel : List String → Option (List String) → Outcome)
    (a : String) (filter : Option (List String))
    (h : alias_to_fqdn a = none) :
    resolveWith fetch₁ sel a filter = Outcome.Invalid ∧
    resolveWith fetch₁ sel a filter = resolveWith fetch₂ sel a filter := by
  constructor <;> simp [resolveWith, h]

theorem resolveWith_invalid_before_fetch_witness :
    resolveWith (fun _ => Except.ok []) parse_and_select "no-at-sign" none =
        Outcome.Invalid ∧
    resolveWith (fun _ => Except.ok []) parse_and_select "no-at-sign" none =
      resolveWith (fun _ => Except.error FetchError.TransportFailure)
        parse_and_select "no-at-sign" none :=
  resolveWith_invalid_before_fetch (fun _ => Except.ok [])
    (fun _ => Except.error FetchError.TransportFailure) parse_and_select
    "no-at-sign" none (by decide)

/-- C10: every `Options` value produced by `Options::parse` has a non-empty
aliases vector: the required `<OPEN_ALIAS>...` argument guarantees the
matches carry at least one value, so the `unwrap` on
`values_of("OPEN_ALIAS")` never hits `none` and `parse` succeeds with at
least one alias. -/
theorem options_parse_aliases_nonempty
    (vals : List String) (v r : Bool) (c : Option (List String)) (m : ArgMatches)
    (h : get_matches vals v r c = some m) :
    values_of_OPEN_ALIAS m ≠ none ∧
    ∃ opts, Options.parse vals v r c = some opts ∧ opts.aliases ≠ [] := by
  have h0 := h
  unfold get_matches at h
  split at h
  case isTrue hc =>
    have hm : m = { open_alias := vals, verbose := v, raw := r, currency := c } := by
      cases h
      rfl
    subst hm
    have hne : vals ≠ [] := by
      intro hnil
      rw [hnil] at hc
      simp at hc
    obtain ⟨a, as, hvals⟩ : ∃ a as, vals = a :: as := by
      cases vals with
      | nil => exact absurd rfl hne
      | cons a as => exact ⟨a, as, rfl⟩
    subst hvals
    constructor
    · simp [values_of_OPEN_ALIAS]
    · refine ⟨{ aliases := a :: as, verbose := v, raw := r, currency_filter := c },
        ?_, by simp⟩
      unfold Options.parse
      rw [h0]
      simp [values_of_OPEN_ALIAS]
  case isFalse =>
    exact absurd h (by simp)

theorem options_parse_aliases_nonempty_witness :
    get_matches ["donate@example.org"] false false none = some
        { open_alias := ["donate@example.org"], verbose := false, raw := false,
          currency := none } ∧
    (values_of_OPEN_ALIAS
        { open_alias := ["donate@example.org"], verbose := false, raw := false,
          currency := none } ≠ none ∧
      ∃ opts, Options.parse ["donate@example.org"] false false none = some opts ∧
        opts.aliases ≠ []) :=
  ⟨by decide,
   options_parse_aliases_nonempty ["donate@example.org"] false false none
     { open_alias := ["donate@example.org"], verbose := false, raw := false,
       currency := none } (by decide)⟩
